import Mathlib

/-!
# Shallow embedding of `museair.h` (MuseAir hash, algorithm version 0.2)

A byte buffer (`const uint8_t*`) is modelled as a natural number holding
the pointed-to memory little-endian: byte `i` of buffer `p` is
`(p >>> (8*i)) % 256`, and pointer arithmetic `p + n` becomes
`advance p n = p >>> (8*n)`.  64-bit machine words are `Nat` values kept
below `2^64`, with wrap-around made explicit by `mask64`.  The build
targets a little-endian host (`MUSEAIR_BSWAP = 0`), so all loads are
little-endian and no final byte swap occurs.  Definition names follow the
C source.
-/

namespace MuseAir

/-- `2^64`, the modulus of `uint64_t` arithmetic. -/
def M64 : Nat := 18446744073709551616

/-- Truncation to a 64-bit word (`uint64_t` wraps modulo `2^64`). -/
def mask64 (x : Nat) : Nat := x % M64

/-- 64-bit wrapping subtraction (`a - b` on `uint64_t`). -/
def sub64 (a b : Nat) : Nat := (a + (M64 - mask64 b)) % M64

/-- 64-bit bitwise complement (`~x` on `uint64_t`, for `x < 2^64`). -/
def comp64 (x : Nat) : Nat := x ^^^ (M64 - 1)

/-- The `MUSEAIR_SECRET` constant array (AiryAi(0) mantissas). -/
def MUSEAIR_SECRET : List Nat :=
  [0x5ae31e589c56e17a, 0x96d7bb04e64f6da9, 0x7ab1006b26f9eb64,
   0x21233394220b8457, 0x047cb9557c9f3b43, 0xd24f2590c0bcee28]

/-- `MUSEAIR_SECRET[n]`. -/
def secret (n : Nat) : Nat := MUSEAIR_SECRET.getD n 0

/-- The `MUSEAIR_RING_PREV` constant. -/
def MUSEAIR_RING_PREV : Nat := 0x33ea8f71bb6016d8

/-- Pointer arithmetic: `advance p n` models `p + n` on a byte pointer. -/
def advance (p n : Nat) : Nat := p >>> (8 * n)

/-- `_museair_read_u64`: little-endian 8-byte load at `p`. -/
def _museair_read_u64 (p : Nat) : Nat := p % M64

/-- `_museair_read_u32`: little-endian 4-byte load at `p` (zero-extended
to 64 bits). -/
def _museair_read_u32 (p : Nat) : Nat := p % 4294967296

/-- A single byte load `p[n]` (as `uint8_t`). -/
def byteAt (p n : Nat) : Nat := (p >>> (8 * n)) % 256

/-- `_museair_read_short`: pack a buffer of length `len ≤ 16` into two
64-bit words, returned as `(i, j)`. -/
def _museair_read_short (bytes len : Nat) : Nat × Nat :=
  if 4 ≤ len then
    -- `int off = (len & 24) >> (len >> 3);  // len >= 8 ? 4 : 0`
    let off := (len &&& 24) >>> (len >>> 3)
    ((_museair_read_u32 bytes <<< 32) |||
       _museair_read_u32 (advance bytes (len - 4)),
     (_museair_read_u32 (advance bytes off) <<< 32) |||
       _museair_read_u32 (advance bytes (len - 4 - off)))
  else if 0 < len then
    ((byteAt bytes 0 <<< 48) ||| (byteAt bytes (len >>> 1) <<< 24) |||
       byteAt bytes (len - 1), 0)
  else
    (0, 0)

/-- `_museair_rotl`: 64-bit rotate left; the C shift amount `(-n) & 63`
equals `(64 - n % 64) % 64` for the rotation counts `n ≤ 63` in use. -/
def _museair_rotl (v n : Nat) : Nat :=
  mask64 (v <<< n) ||| (v >>> ((64 - n % 64) % 64))

/-- `_museair_rotr`: 64-bit rotate right. -/
def _museair_rotr (v n : Nat) : Nat :=
  (v >>> n) ||| mask64 (v <<< ((64 - n % 64) % 64))

/-- `_museair_wmul`: 64×64→128 widening multiply, returning `(lo, hi)`. -/
def _museair_wmul (a b : Nat) : Nat × Nat := (mask64 (a * b), (a * b) >>> 64)

/-- `_museair_chixx`: the χ-style nonlinear mix
`(t, u, v) ↦ (t ^ (~u & v), u ^ (~v & t), v ^ (~t & u))`. -/
def _museair_chixx (t u v : Nat) : Nat × Nat × Nat :=
  (t ^^^ (comp64 u &&& v), u ^^^ (comp64 v &&& t), v ^^^ (comp64 t &&& u))

/-- `_museair_frac_6`: one 2-word absorption step used by `layer_6`. -/
def _museair_frac_6 (bfast : Bool) (sp sq ip iq : Nat) : Nat × Nat :=
  if bfast then
    _museair_wmul (sp ^^^ ip) (sq ^^^ iq)
  else
    let sp := sp ^^^ ip
    let sq := sq ^^^ iq
    let m := _museair_wmul sp sq
    (sp ^^^ m.1, sq ^^^ m.2)

/-- `_museair_frac_3`: one 1-word absorption step used by `layer_3`. -/
def _museair_frac_3 (bfast : Bool) (sp sq input : Nat) : Nat × Nat :=
  if bfast then
    _museair_wmul sp (sq ^^^ input)
  else
    let sq := sq ^^^ input
    let m := _museair_wmul sp sq
    (sp ^^^ m.1, sq ^^^ m.2)

/-- The 6-word running state `uint64_t state[6]` of the block compressor. -/
structure State where
  s0 : Nat
  s1 : Nat
  s2 : Nat
  s3 : Nat
  s4 : Nat
  s5 : Nat
deriving DecidableEq

/-- `_museair_layer_12`: one 96-byte (12-word) block pass; returns the new
state and the new ring carry (`lo5`). -/
def _museair_layer_12 (bfast : Bool) (st : State) (p ring_prev : Nat) :
    State × Nat :=
  if bfast then
    let s0 := st.s0 ^^^ _museair_read_u64 p
    let s1 := st.s1 ^^^ _museair_read_u64 (advance p 8)
    let m0 := _museair_wmul s0 s1
    let s0 := ring_prev ^^^ m0.2
    let s1 := s1 ^^^ _museair_read_u64 (advance p 16)
    let s2 := st.s2 ^^^ _museair_read_u64 (advance p 24)
    let m1 := _museair_wmul s1 s2
    let s1 := m0.1 ^^^ m1.2
    let s2 := s2 ^^^ _museair_read_u64 (advance p 32)
    let s3 := st.s3 ^^^ _museair_read_u64 (advance p 40)
    let m2 := _museair_wmul s2 s3
    let s2 := m1.1 ^^^ m2.2
    let s3 := s3 ^^^ _museair_read_u64 (advance p 48)
    let s4 := st.s4 ^^^ _museair_read_u64 (advance p 56)
    let m3 := _museair_wmul s3 s4
    let s3 := m2.1 ^^^ m3.2
    let s4 := s4 ^^^ _museair_read_u64 (advance p 64)
    let s5 := st.s5 ^^^ _museair_read_u64 (advance p 72)
    let m4 := _museair_wmul s4 s5
    let s4 := m3.1 ^^^ m4.2
    let s5 := s5 ^^^ _museair_read_u64 (advance p 80)
    let s0 := s0 ^^^ _museair_read_u64 (advance p 88)
    let m5 := _museair_wmul s5 s0
    let s5 := m4.1 ^^^ m5.2
    (⟨s0, s1, s2, s3, s4, s5⟩, m5.1)
  else
    let s0 := st.s0 ^^^ _museair_read_u64 p
    let s1 := st.s1 ^^^ _museair_read_u64 (advance p 8)
    let m0 := _museair_wmul s0 s1
    let s0 := mask64 (s0 + (ring_prev ^^^ m0.2))
    let s1 := s1 ^^^ _museair_read_u64 (advance p 16)
    let s2 := st.s2 ^^^ _museair_read_u64 (advance p 24)
    let m1 := _museair_wmul s1 s2
    let s1 := mask64 (s1 + (m0.1 ^^^ m1.2))
    let s2 := s2 ^^^ _museair_read_u64 (advance p 32)
    let s3 := st.s3 ^^^ _museair_read_u64 (advance p 40)
    let m2 := _museair_wmul s2 s3
    let s2 := mask64 (s2 + (m1.1 ^^^ m2.2))
    let s3 := s3 ^^^ _museair_read_u64 (advance p 48)
    let s4 := st.s4 ^^^ _museair_read_u64 (advance p 56)
    let m3 := _museair_wmul s3 s4
    let s3 := mask64 (s3 + (m2.1 ^^^ m3.2))
    let s4 := s4 ^^^ _museair_read_u64 (advance p 64)
    let s5 := st.s5 ^^^ _museair_read_u64 (advance p 72)
    let m4 := _museair_wmul s4 s5
    let s4 := mask64 (s4 + (m3.1 ^^^ m4.2))
    let s5 := s5 ^^^ _museair_read_u64 (advance p 80)
    let s0 := s0 ^^^ _museair_read_u64 (advance p 88)
    let m5 := _museair_wmul s5 s0
    let s5 := mask64 (s5 + (m4.1 ^^^ m5.2))
    (⟨s0, s1, s2, s3, s4, s5⟩, m5.1)

/-- `_museair_layer_6`: absorb a 48-byte chunk via three `frac_6` steps. -/
def _museair_layer_6 (bfast : Bool) (st : State) (p : Nat) : State :=
  let a := _museair_frac_6 bfast st.s0 st.s1 (_museair_read_u64 p)
    (_museair_read_u64 (advance p 8))
  let b := _museair_frac_6 bfast st.s2 st.s3 (_museair_read_u64 (advance p 16))
    (_museair_read_u64 (advance p 24))
  let c := _museair_frac_6 bfast st.s4 st.s5 (_museair_read_u64 (advance p 32))
    (_museair_read_u64 (advance p 40))
  ⟨a.1, a.2, b.1, b.2, c.1, c.2⟩

/-- `_museair_layer_3`: absorb a 24-byte chunk via three `frac_3` steps. -/
def _museair_layer_3 (bfast : Bool) (st : State) (p : Nat) : State :=
  let a := _museair_frac_3 bfast st.s0 st.s3 (_museair_read_u64 p)
  let b := _museair_frac_3 bfast st.s1 st.s4 (_museair_read_u64 (advance p 8))
  let c := _museair_frac_3 bfast st.s2 st.s5 (_museair_read_u64 (advance p 16))
  ⟨a.1, b.1, c.1, a.2, b.2, c.2⟩

/-- The first half of `_museair_layer_0`: pack the at-most-24-byte tail
(`q ≤ 16` takes `read_short`, otherwise three overlapping u64 loads). -/
def readTail (p q : Nat) : Nat × Nat × Nat :=
  if q ≤ 16 then
    let ij := _museair_read_short p q
    (ij.1, ij.2, 0)
  else
    (_museair_read_u64 p, _museair_read_u64 (advance p 8),
     _museair_read_u64 (advance p (q - 8)))

/-- `_museair_layer_0`: fold the remaining tail and the running state into
the three accumulators `(i, j, k)`. -/
def _museair_layer_0 (st : State) (p q len : Nat) : Nat × Nat × Nat :=
  let t := readTail p q
  if 24 ≤ len then
    let a := _museair_chixx st.s0 st.s2 st.s4
    let b := _museair_chixx st.s1 st.s3 st.s5
    (t.1 ^^^ mask64 (a.1 + b.1), t.2.1 ^^^ mask64 (a.2.1 + b.2.1),
     t.2.2 ^^^ mask64 (a.2.2 + b.2.2))
  else
    (t.1 ^^^ st.s0, t.2.1 ^^^ st.s1, t.2.2 ^^^ st.s2)

/-- `_museair_layer_f`: the length-dependent final twist. -/
def _museair_layer_f (bfast : Bool) (len i j k : Nat) : Nat × Nat × Nat :=
  let rot := len &&& 63
  let c := _museair_chixx i j k
  let i := _museair_rotl c.1 rot
  let j := _museair_rotr c.2.1 rot
  let k := c.2.2 ^^^ mask64 len
  if bfast then
    let m0 := _museair_wmul i j
    let m1 := _museair_wmul j k
    let m2 := _museair_wmul k i
    (m0.1 ^^^ m2.2, m1.1 ^^^ m0.2, m2.1 ^^^ m1.2)
  else
    let m0 := _museair_wmul (i ^^^ secret 3) j
    let m1 := _museair_wmul (j ^^^ secret 4) k
    let m2 := _museair_wmul (k ^^^ secret 5) i
    (i ^^^ m0.1 ^^^ m2.2, j ^^^ m1.1 ^^^ m0.2, k ^^^ m2.1 ^^^ m1.2)

/-- The initial running state
`{SECRET[0]+seed, SECRET[1]-seed, SECRET[2]^seed, SECRET[3], SECRET[4], SECRET[5]}`
declared at the top of `_museair_tower_loong`. -/
def initState (seed : Nat) : State :=
  ⟨mask64 (secret 0 + seed), sub64 (secret 1) seed, secret 2 ^^^ seed,
   secret 3, secret 4, secret 5⟩

/-- The extra seeding of words 3..5 performed only when `len ≥ 96`:
`state[3] += seed; state[4] -= seed; state[5] ^= seed`. -/
def seedTail (st : State) (seed : Nat) : State :=
  ⟨st.s0, st.s1, st.s2, mask64 (st.s3 + seed), sub64 st.s4 seed,
   st.s5 ^^^ seed⟩

/-- The `do { layer_12 } while (q >= 96)` loop, fuelled by `fuel` (any
`fuel ≥ q / 96` reproduces the C loop, which always terminates). Returns
the state, the unread pointer, the remaining count and the ring carry. -/
def blockLoop (bfast : Bool) : Nat → State → Nat → Nat → Nat →
    State × Nat × Nat × Nat
  | 0, st, p, q, ring => (st, p, q, ring)
  | fuel + 1, st, p, q, ring =>
    if 96 ≤ q then
      let r := _museair_layer_12 bfast st p ring
      blockLoop bfast fuel r.1 (advance p 96) (q - 96) r.2
    else
      (st, p, q, ring)

/-- The sub-96-byte stages of `_museair_tower_loong`: the conditional
`layer_6` and `layer_3` passes followed by `layer_0`, starting from state
`st`, read pointer `p` and remaining count `q`. -/
def towerTail (bfast : Bool) (st : State) (p q len : Nat) : Nat × Nat × Nat :=
  let b :=
    if 48 ≤ q then
      (_museair_layer_6 bfast st p, advance p 48, q - 48)
    else (st, p, q)
  let c :=
    if 24 ≤ b.2.2 then
      (_museair_layer_3 bfast b.1 b.2.1, advance b.2.1 24, b.2.2 - 24)
    else b
  _museair_layer_0 c.1 c.2.1 c.2.2 len

/-- `_museair_tower_loong` up to (excluding) the final `layer_f` twist:
state setup, the optional extra seeding plus `layer_12` loop plus one
ring-carry fold for `len ≥ 96`, then `towerTail`. -/
def towerLoongPre (bfast : Bool) (bytes len seed : Nat) : Nat × Nat × Nat :=
  let st := initState seed
  if 96 ≤ len then
    let r := blockLoop bfast len (seedTail st seed) bytes len
      MUSEAIR_RING_PREV
    towerTail bfast
      ⟨r.1.s0 ^^^ r.2.2.2, r.1.s1, r.1.s2, r.1.s3, r.1.s4, r.1.s5⟩
      r.2.1 r.2.2.1 len
  else
    towerTail bfast st bytes len len

/-- `_museair_tower_loong`: the block compressor for inputs of length
`> 16`; produces the pre-epilogue accumulators `(i, j, k)`. -/
def _museair_tower_loong (bfast : Bool) (bytes len seed : Nat) :
    Nat × Nat × Nat :=
  let t := towerLoongPre bfast bytes len seed
  _museair_layer_f bfast len t.1 t.2.1 t.2.2

/-- `_museair_tower_short`: the short-input (≤ 16 bytes) tower. -/
def _museair_tower_short (bytes len seed : Nat) : Nat × Nat :=
  let ij := _museair_read_short bytes len
  let m := _museair_wmul (seed ^^^ secret 0) (mask64 len ^^^ secret 1)
  (ij.1 ^^^ m.1 ^^^ mask64 len, ij.2 ^^^ m.2 ^^^ seed)

/-- `_museair_epi_short`: the 64-bit short epilogue. -/
def _museair_epi_short (i j : Nat) : Nat × Nat :=
  let i := i ^^^ secret 2
  let j := j ^^^ secret 3
  let m := _museair_wmul i j
  let i := i ^^^ m.1 ^^^ secret 4
  let j := j ^^^ m.2 ^^^ secret 5
  let n := _museair_wmul i j
  (i ^^^ j ^^^ n.1 ^^^ n.2, j)

/-- `_museair_epi_short_128`: the 128-bit short epilogue. -/
def _museair_epi_short_128 (bfast : Bool) (i j : Nat) : Nat × Nat :=
  if bfast then
    let m0 := _museair_wmul i j
    let m1 := _museair_wmul (i ^^^ secret 2) (j ^^^ secret 3)
    let i := m0.1 ^^^ m1.2
    let j := m1.1 ^^^ m0.2
    let n0 := _museair_wmul i j
    let n1 := _museair_wmul (i ^^^ secret 4) (j ^^^ secret 5)
    (n0.1 ^^^ n1.2, n1.1 ^^^ n0.2)
  else
    let m0 := _museair_wmul (i ^^^ secret 2) j
    let m1 := _museair_wmul i (j ^^^ secret 3)
    let i := i ^^^ m0.1 ^^^ m1.2
    let j := j ^^^ m1.1 ^^^ m0.2
    let n0 := _museair_wmul (i ^^^ secret 4) j
    let n1 := _museair_wmul i (j ^^^ secret 5)
    (i ^^^ n0.1 ^^^ n1.2, j ^^^ n1.1 ^^^ n0.2)

/-- `_museair_epi_loong`: the 64-bit long epilogue. -/
def _museair_epi_loong (bfast : Bool) (i j k : Nat) : Nat × Nat × Nat :=
  if bfast then
    let m0 := _museair_wmul i j
    let m1 := _museair_wmul j k
    let m2 := _museair_wmul k i
    let i := m0.1 ^^^ m2.2
    let j := m1.1 ^^^ m0.2
    let k := m2.1 ^^^ m1.2
    (mask64 (i + (j + k)), j, k)
  else
    let m0 := _museair_wmul (i ^^^ secret 0) j
    let m1 := _museair_wmul (j ^^^ secret 1) k
    let m2 := _museair_wmul (k ^^^ secret 2) i
    let i := i ^^^ m0.1 ^^^ m2.2
    let j := j ^^^ m1.1 ^^^ m0.2
    let k := k ^^^ m2.1 ^^^ m1.2
    (mask64 (i + (j + k)), j, k)

/-- `_museair_epi_loong_128`: the 128-bit long epilogue. -/
def _museair_epi_loong_128 (bfast : Bool) (i j k : Nat) : Nat × Nat :=
  if bfast then
    let m0 := _museair_wmul i j
    let m1 := _museair_wmul j k
    let m2 := _museair_wmul k i
    (m0.1 ^^^ m1.1 ^^^ m2.2, m0.2 ^^^ m1.2 ^^^ m2.1)
  else
    let m0 := _museair_wmul (i ^^^ secret 0) j
    let m1 := _museair_wmul (j ^^^ secret 1) k
    let m2 := _museair_wmul (k ^^^ secret 2) i
    (i ^^^ m0.1 ^^^ m1.1 ^^^ m2.2, j ^^^ m0.2 ^^^ m1.2 ^^^ m2.1)

/-- `_museair_hash_short`: short tower plus 64-bit short epilogue. -/
def _museair_hash_short (bytes len seed : Nat) : Nat × Nat :=
  let t := _museair_tower_short bytes len seed
  _museair_epi_short t.1 t.2

/-- `_museair_hash_short_128`: short tower plus 128-bit short epilogue. -/
def _museair_hash_short_128 (bfast : Bool) (bytes len seed : Nat) :
    Nat × Nat :=
  let t := _museair_tower_short bytes len seed
  _museair_epi_short_128 bfast t.1 t.2

/-- `_museair_hash_loong`: long tower plus 64-bit long epilogue. -/
def _museair_hash_loong (bfast : Bool) (bytes len seed : Nat) :
    Nat × Nat × Nat :=
  let t := _museair_tower_loong bfast bytes len seed
  _museair_epi_loong bfast t.1 t.2.1 t.2.2

/-- `_museair_hash_loong_128`: long tower plus 128-bit long epilogue. -/
def _museair_hash_loong_128 (bfast : Bool) (bytes len seed : Nat) :
    Nat × Nat :=
  let t := _museair_tower_loong bfast bytes len seed
  _museair_epi_loong_128 bfast t.1 t.2.1 t.2.2

/-- `_museair_hash`: dispatch on `len <= 16`, return the 64-bit digest.
The `uint64_t seed` parameter is truncated to 64 bits at the ABI
boundary. -/
def _museair_hash (bfast : Bool) (bytes len seed : Nat) : Nat :=
  let seed := mask64 seed
  if len ≤ 16 then (_museair_hash_short bytes len seed).1
  else (_museair_hash_loong bfast bytes len seed).1

/-- `_museair_hash_128`: dispatch on `len <= 16`, return
`(digest, upper_half)`. -/
def _museair_hash_128 (bfast : Bool) (bytes len seed : Nat) : Nat × Nat :=
  let seed := mask64 seed
  if len ≤ 16 then _museair_hash_short_128 bfast bytes len seed
  else _museair_hash_loong_128 bfast bytes len seed

/-- Public entry point `museair_hash`. -/
def museair_hash (bytes len seed : Nat) : Nat :=
  _museair_hash false bytes len seed

/-- Public entry point `museair_hash_128` (returns `(lower, upper)`). -/
def museair_hash_128 (bytes len seed : Nat) : Nat × Nat :=
  _museair_hash_128 false bytes len seed

/-- Public entry point `museair_bfast_hash`. -/
def museair_bfast_hash (bytes len seed : Nat) : Nat :=
  _museair_hash true bytes len seed

/-- Public entry point `museair_bfast_hash_128`. -/
def museair_bfast_hash_128 (bytes len seed : Nat) : Nat × Nat :=
  _museair_hash_128 true bytes len seed

/-!
## The SMHasher3 verification sweep (`selftests.c`, `ComputedVerifyImpl`)

The harness hashes the keys `{}`, `{0}`, `{0,1}`, ..., `{0,...,254}`
(key of length `k` with seed `256 - k`), concatenates the little-endian
digests into one buffer, hashes that buffer with seed 0, and takes the
low 32 bits of the result, read little-endian.
-/

/-- The 256-byte key array of the harness after `k` iterations:
byte `i` is `i` for `i < k`, and 0 beyond (the array is `calloc`-ed). -/
def keyBuffer : Nat → Nat
  | 0 => 0
  | k + 1 => keyBuffer k ||| (k <<< (8 * k))

/-- The little-endian concatenation of the first `n` 8-byte digests of the
sweep through a 64-bit entry point `H`. -/
def sweep64 (H : Nat → Nat → Nat → Nat) : Nat → Nat
  | 0 => 0
  | k + 1 => sweep64 H k ||| (H (keyBuffer k) k (256 - k) <<< (64 * k))

/-- `ComputedVerifyImpl` for a 64-bit entry point: low 32 bits (read
little-endian) of the digest of the 2048-byte digest buffer with seed 0. -/
def computedVerify64 (H : Nat → Nat → Nat → Nat) : Nat :=
  H (sweep64 H 256) (8 * 256) 0 % 4294967296

/-- The little-endian concatenation of the first `n` 16-byte digests
(lower half first, as written to the output buffer) of the sweep through
a 128-bit entry point `H`. -/
def sweep128 (H : Nat → Nat → Nat → Nat × Nat) : Nat → Nat
  | 0 => 0
  | k + 1 =>
    let d := H (keyBuffer k) k (256 - k)
    sweep128 H k ||| ((d.1 ||| (d.2 <<< 64)) <<< (128 * k))

/-- `ComputedVerifyImpl` for a 128-bit entry point. -/
def computedVerify128 (H : Nat → Nat → Nat → Nat × Nat) : Nat :=
  (H (sweep128 H 256) (16 * 256) 0).1 % 4294967296

/-!
## Definitions written from the words of the spec, for comparison only
-/

/-- Modelled from the spec sentence for the final twist, which states the
order: XOR `k` with the original length first, then one `ChiMix`, then
the rotations, then the three wide multiplications.  Written only to be
compared with `_museair_layer_f`, whose order differs. -/
def layer_f_spec_order (bfast : Bool) (len i j k : Nat) : Nat × Nat × Nat :=
  let k := k ^^^ mask64 len
  let c := _museair_chixx i j k
  let rot := len &&& 63
  let i := _museair_rotl c.1 rot
  let j := _museair_rotr c.2.1 rot
  let k := c.2.2
  if bfast then
    let m0 := _museair_wmul i j
    let m1 := _museair_wmul j k
    let m2 := _museair_wmul k i
    (m0.1 ^^^ m2.2, m1.1 ^^^ m0.2, m2.1 ^^^ m1.2)
  else
    let m0 := _museair_wmul (i ^^^ secret 3) j
    let m1 := _museair_wmul (j ^^^ secret 4) k
    let m2 := _museair_wmul (k ^^^ secret 5) i
    (i ^^^ m0.1 ^^^ m2.2, j ^^^ m1.1 ^^^ m0.2, k ^^^ m2.1 ^^^ m1.2)

/-!
## Helper lemmas
-/

/-- `M64` as a power of two. -/
lemma M64_eq_pow : M64 = 2 ^ 64 := by norm_num [M64]

/-- Bit `i` of the all-ones 64-bit mask. -/
lemma testBit_mask64 (i : Nat) : (M64 - 1).testBit i = decide (i < 64) := by
  rw [show M64 - 1 = 2 ^ 64 - 1 from by norm_num [M64]]
  exact Nat.testBit_two_pow_sub_one 64 i

/-- Bit `i` of the 64-bit complement of a 64-bit word. -/
lemma testBit_comp64 (x i : Nat) (hx : x < M64) :
    (comp64 x).testBit i = (decide (i < 64) && !x.testBit i) := by
  unfold comp64
  rw [Nat.testBit_xor, testBit_mask64]
  by_cases hi : i < 64
  · simp [hi]
  · have hx64 : x < 2 ^ i := by
      calc x < 2 ^ 64 := M64_eq_pow ▸ hx
      _ ≤ 2 ^ i := Nat.pow_le_pow_right (by norm_num) (Nat.le_of_not_lt hi)

    simp [hi, Nat.testBit_lt_two_pow hx64]

/-- Bit `i` of the first `chixx` component. -/
lemma testBit_chixx_fst (t u v i : Nat) (hu : u < M64) :
    ((_museair_chixx t u v).1).testBit i =
      ((t.testBit i).xor ((decide (i < 64) && !u.testBit i) && v.testBit i)) := by
  simp [_museair_chixx, testBit_comp64 u i hu]

/-- Bit `i` of the second `chixx` component. -/
lemma testBit_chixx_snd (t u v i : Nat) (hv : v < M64) :
    ((_museair_chixx t u v).2.1).testBit i =
      ((u.testBit i).xor ((decide (i < 64) && !v.testBit i) && t.testBit i)) := by
  simp [_museair_chixx, testBit_comp64 v i hv]

/-- Bit `i` of the third `chixx` component. -/
lemma testBit_chixx_thd (t u v i : Nat) (ht : t < M64) :
    ((_museair_chixx t u v).2.2).testBit i =
      ((v.testBit i).xor ((decide (i < 64) && !t.testBit i) && u.testBit i)) := by
  simp [_museair_chixx, testBit_comp64 t i ht]

/-- The `chixx` components of 64-bit inputs are 64-bit words. -/
lemma chixx_lt (t u v : Nat) (ht : t < M64) (hu : u < M64) (hv : v < M64) :
    (_museair_chixx t u v).1 < M64 ∧ (_museair_chixx t u v).2.1 < M64 ∧
      (_museair_chixx t u v).2.2 < M64 := by
  rw [M64_eq_pow] at ht hu hv ⊢
  refine ⟨Nat.xor_lt_two_pow ht ?_, Nat.xor_lt_two_pow hu ?_,
    Nat.xor_lt_two_pow hv ?_⟩
  · exact Nat.lt_of_le_of_lt Nat.and_le_right hv
  · exact Nat.lt_of_le_of_lt Nat.and_le_right ht
  · exact Nat.lt_of_le_of_lt Nat.and_le_right hu

/-- On 64-bit words, `chixx` is an involution. -/
lemma chixx_chixx (t u v : Nat) (ht : t < M64) (hu : u < M64) (hv : v < M64) :
    _museair_chixx (_museair_chixx t u v).1 (_museair_chixx t u v).2.1
      (_museair_chixx t u v).2.2 = (t, u, v) := by
  obtain ⟨h1, h2, h3⟩ := chixx_lt t u v ht hu hv
  refine Prod.ext ?_ (Prod.ext ?_ ?_)
  · apply Nat.eq_of_testBit_eq
    intro i
    rw [testBit_chixx_fst _ _ _ i h2, testBit_chixx_fst t u v i hu,
      testBit_chixx_snd t u v i hv, testBit_chixx_thd t u v i ht]
    by_cases hi : i < 64
    · simp only [hi, decide_True, Bool.true_and]
      generalize t.testBit i = a
      generalize u.testBit i = b
      generalize v.testBit i = c
      cases a <;> cases b <;> cases c <;> rfl
    · simp [hi]
  · apply Nat.eq_of_testBit_eq
    intro i
    rw [testBit_chixx_snd _ _ _ i h3, testBit_chixx_fst t u v i hu,
      testBit_chixx_snd t u v i hv, testBit_chixx_thd t u v i ht]
    by_cases hi : i < 64
    · simp only [hi, decide_True, Bool.true_and]
      generalize t.testBit i = a
      generalize u.testBit i = b
      generalize v.testBit i = c
      cases a <;> cases b <;> cases c <;> rfl
    · simp [hi]
  · apply Nat.eq_of_testBit_eq
    intro i
    rw [testBit_chixx_thd _ _ _ i h1, testBit_chixx_fst t u v i hu,
      testBit_chixx_snd t u v i hv, testBit_chixx_thd t u v i ht]
    by_cases hi : i < 64
    · simp only [hi, decide_True, Bool.true_and]
      generalize t.testBit i = a
      generalize u.testBit i = b
      generalize v.testBit i = c
      cases a <;> cases b <;> cases c <;> rfl
    · simp [hi]

/-- The short packing at length 0 ignores the buffer. -/
lemma read_short_zero (b : Nat) : _museair_read_short b 0 = (0, 0) := rfl

/-- The short tower at length 0 ignores the buffer. -/
lemma tower_short_zero (b seed : Nat) :
    _museair_tower_short b 0 seed = _museair_tower_short 0 0 seed := by
  unfold _museair_tower_short
  rw [read_short_zero, read_short_zero]

/-- The 64-bit dispatcher at length 0 ignores the buffer. -/
lemma hash_zero_eq (bfast : Bool) (b seed : Nat) :
    _museair_hash bfast b 0 seed = _museair_hash bfast 0 0 seed := by
  show (_museair_hash_short b 0 (mask64 seed)).1 =
    (_museair_hash_short 0 0 (mask64 seed)).1
  unfold _museair_hash_short
  rw [tower_short_zero]

/-- The 128-bit dispatcher at length 0 ignores the buffer. -/
lemma hash_128_zero_eq (bfast : Bool) (b seed : Nat) :
    _museair_hash_128 bfast b 0 seed = _museair_hash_128 bfast 0 0 seed := by
  show _museair_hash_short_128 bfast b 0 (mask64 seed) =
    _museair_hash_short_128 bfast 0 0 (mask64 seed)
  unfold _museair_hash_short_128
  rw [tower_short_zero]

/-!
## Claim theorems
-/

set_option maxRecDepth 1000000 in
set_option maxHeartbeats 4000000 in
/-- C1: running the SMHasher3 length sweep (key `k` = bytes `0..k-1`,
seed `256-k`) through each public entry point, concatenating the 256
little-endian digests, and re-hashing the buffer with seed 0 through the
same entry point yields low-32-bits-little-endian verification values
`0x46B2D34D`, `0xCABAA4CD`, `0x98CDFE3E`, `0x81D30B6E` respectively. -/
theorem C1_conformance_oracle :
    computedVerify64 museair_hash = 0x46B2D34D ∧
    computedVerify128 museair_hash_128 = 0xCABAA4CD ∧
    computedVerify64 museair_bfast_hash = 0x98CDFE3E ∧
    computedVerify128 museair_bfast_hash_128 = 0x81D30B6E := by
  decide

/-- C2: every public entry point takes the short pipeline (`tower_short`
followed by the short epilogue, composed in `_museair_hash_short` and
`_museair_hash_short_128`) exactly when `len ≤ 16`, and the block
compressor plus long epilogue (`_museair_hash_loong`,
`_museair_hash_loong_128`) when `len > 16`. -/
theorem C2_short_long_cutoff (bytes len seed : Nat) :
    (len ≤ 16 →
      museair_hash bytes len seed =
        (_museair_hash_short bytes len (mask64 seed)).1 ∧
      museair_hash_128 bytes len seed =
        _museair_hash_short_128 false bytes len (mask64 seed) ∧
      museair_bfast_hash bytes len seed =
        (_museair_hash_short bytes len (mask64 seed)).1 ∧
      museair_bfast_hash_128 bytes len seed =
        _museair_hash_short_128 true bytes len (mask64 seed)) ∧
    (16 < len →
      museair_hash bytes len seed =
        (_museair_hash_loong false bytes len (mask64 seed)).1 ∧
      museair_hash_128 bytes len seed =
        _museair_hash_loong_128 false bytes len (mask64 seed) ∧
      museair_bfast_hash bytes len seed =
        (_museair_hash_loong true bytes len (mask64 seed)).1 ∧
      museair_bfast_hash_128 bytes len seed =
        _museair_hash_loong_128 true bytes len (mask64 seed)) := by
  constructor
  · intro h
    refine ⟨?_, ?_, ?_, ?_⟩ <;>
      simp [museair_hash, museair_hash_128, museair_bfast_hash,
        museair_bfast_hash_128, _museair_hash, _museair_hash_128, h]
  · intro h
    have h2 : ¬ len ≤ 16 := by omega
    refine ⟨?_, ?_, ?_, ?_⟩ <;>
      simp [museair_hash, museair_hash_128, museair_bfast_hash,
        museair_bfast_hash_128, _museair_hash, _museair_hash_128, h2]

/-- C2 witness: lengths 16 and 17 take the short and long pipelines
respectively. -/
theorem C2_witness :
    museair_hash 0 16 0 = (_museair_hash_short 0 16 (mask64 0)).1 ∧
    museair_hash 0 17 0 = (_museair_hash_loong false 0 17 (mask64 0)).1 :=
  ⟨((C2_short_long_cutoff 0 16 0).1 (by decide)).1,
   ((C2_short_long_cutoff 0 17 0).2 (by decide)).1⟩

/-- C3: in the tail fold `layer_0`, when the original length is `≥ 24`
ChiMix hits `(s0, s2, s4)` and `(s1, s3, s5)` once each and then the
accumulators get `i ^= s0+s1`, `j ^= s2+s3`, `k ^= s4+s5` (`s` the
mixed state); for original lengths `17..23` no ChiMix happens and only
`i ^= s0`, `j ^= s1`, `k ^= s2`. -/
theorem C3_tail_fold (st : State) (p q len : Nat) :
    (24 ≤ len →
      _museair_layer_0 st p q len =
        ((readTail p q).1 ^^^
           mask64 ((_museair_chixx st.s0 st.s2 st.s4).1 +
             (_museair_chixx st.s1 st.s3 st.s5).1),
         (readTail p q).2.1 ^^^
           mask64 ((_museair_chixx st.s0 st.s2 st.s4).2.1 +
             (_museair_chixx st.s1 st.s3 st.s5).2.1),
         (readTail p q).2.2 ^^^
           mask64 ((_museair_chixx st.s0 st.s2 st.s4).2.2 +
             (_museair_chixx st.s1 st.s3 st.s5).2.2))) ∧
    (17 ≤ len → len ≤ 23 →
      _museair_layer_0 st p q len =
        ((readTail p q).1 ^^^ st.s0, (readTail p q).2.1 ^^^ st.s1,
         (readTail p q).2.2 ^^^ st.s2)) := by
  constructor
  · intro h
    simp [_museair_layer_0, h]
  · intro h1 h2
    have h : ¬ 24 ≤ len := by omega
    simp [_museair_layer_0, h]

/-- C3 witness: the two branches at lengths 24 and 17. -/
theorem C3_witness :
    _museair_layer_0 ⟨1, 2, 3, 4, 5, 6⟩ 0 0 24 =
      ((readTail 0 0).1 ^^^
         mask64 ((_museair_chixx 1 3 5).1 + (_museair_chixx 2 4 6).1),
       (readTail 0 0).2.1 ^^^
         mask64 ((_museair_chixx 1 3 5).2.1 + (_museair_chixx 2 4 6).2.1),
       (readTail 0 0).2.2 ^^^
         mask64 ((_museair_chixx 1 3 5).2.2 + (_museair_chixx 2 4 6).2.2)) ∧
    _museair_layer_0 ⟨1, 2, 3, 4, 5, 6⟩ 0 0 17 =
      ((readTail 0 0).1 ^^^ 1, (readTail 0 0).2.1 ^^^ 2,
       (readTail 0 0).2.2 ^^^ 3) :=
  ⟨(C3_tail_fold ⟨1, 2, 3, 4, 5, 6⟩ 0 0 24).1 (by decide),
   (C3_tail_fold ⟨1, 2, 3, 4, 5, 6⟩ 0 0 17).2 (by decide) (by decide)⟩

/-- C4 counterexample: the final twist does NOT perform the spec order
(XOR the length into `k` first, then ChiMix, then rotate, then the
multiplies); at `len = 17`, `i = j = k = 0` the code order and the spec
order disagree. -/
theorem C4_counterexample :
    _museair_layer_f false 17 0 0 0 ≠ layer_f_spec_order false 17 0 0 0 := by
  decide

/-- C4 (amended): the twist applies ChiMix first, then rotates `i` left
and `j` right by `len & 63`, then XORs the length into `k`, then the
three wide multiplies pairing `(i,j)`, `(j,k)`, `(k,i)` (first operand
XORed with a secret word in the full variant) with crosswise low/high
folding; the twist runs unconditionally on every input reaching the
block compressor. -/
theorem C4_final_twist (bfast : Bool) (bytes len seed i j k : Nat) :
    (_museair_layer_f bfast len i j k =
      (let c := _museair_chixx i j k
       let i1 := _museair_rotl c.1 (len &&& 63)
       let j1 := _museair_rotr c.2.1 (len &&& 63)
       let k1 := c.2.2 ^^^ mask64 len
       if bfast then
         ((_museair_wmul i1 j1).1 ^^^ (_museair_wmul k1 i1).2,
          (_museair_wmul j1 k1).1 ^^^ (_museair_wmul i1 j1).2,
          (_museair_wmul k1 i1).1 ^^^ (_museair_wmul j1 k1).2)
       else
         (i1 ^^^ (_museair_wmul (i1 ^^^ secret 3) j1).1 ^^^
            (_museair_wmul (k1 ^^^ secret 5) i1).2,
          j1 ^^^ (_museair_wmul (j1 ^^^ secret 4) k1).1 ^^^
            (_museair_wmul (i1 ^^^ secret 3) j1).2,
          k1 ^^^ (_museair_wmul (k1 ^^^ secret 5) i1).1 ^^^
            (_museair_wmul (j1 ^^^ secret 4) k1).2))) ∧
    _museair_tower_loong bfast bytes len seed =
      _museair_layer_f bfast len (towerLoongPre bfast bytes len seed).1
        (towerLoongPre bfast bytes len seed).2.1
        (towerLoongPre bfast bytes len seed).2.2 := by
  refine ⟨?_, rfl⟩
  cases bfast <;> rfl

/-- C5 counterexample: in the fast variant of the 12-word block update,
the first state word of a pair is NOT set to the low half of the pair
product.  With state all-ones-words `1`, a zero block and ring carry 5,
the pair-0 product is `1 * 1` (low half 1), yet state word 0 ends as
`5` (= carry XOR high half, the zero reads leaving it unchanged). -/
theorem C5_counterexample :
    (_museair_layer_12 true ⟨1, 1, 1, 1, 1, 1⟩ 0 5).1.s0 = 5 ∧
    (_museair_wmul (1 ^^^ _museair_read_u64 0)
      (1 ^^^ _museair_read_u64 (advance 0 8))).1 = 1 ∧
    (5 : Nat) ≠ 1 := by
  decide

/-- C5 (amended): per-pair characterisation of the 12-word block update:
each pair XORs two fresh input words in and wide-multiplies; the full
variant adds `carry XOR hi` to the (xored) first word, the fast variant
assigns `carry XOR hi` to it; the low half is the carry fed to the next
pair and the last low half is the block ring carry (word 0 additionally
absorbs input word 11 as second operand of the last pair). -/
theorem C5_block_pair_updates (bfast : Bool) (st : State) (p ring : Nat) :
    _museair_layer_12 bfast st p ring =
      (let rd := fun n => _museair_read_u64 (advance p n)
       let a0 := st.s0 ^^^ rd 0
       let b0 := st.s1 ^^^ rd 8
       let m0 := _museair_wmul a0 b0
       let u0 := if bfast then ring ^^^ m0.2 else mask64 (a0 + (ring ^^^ m0.2))
       let a1 := b0 ^^^ rd 16
       let b1 := st.s2 ^^^ rd 24
       let m1 := _museair_wmul a1 b1
       let u1 := if bfast then m0.1 ^^^ m1.2 else mask64 (a1 + (m0.1 ^^^ m1.2))
       let a2 := b1 ^^^ rd 32
       let b2 := st.s3 ^^^ rd 40
       let m2 := _museair_wmul a2 b2
       let u2 := if bfast then m1.1 ^^^ m2.2 else mask64 (a2 + (m1.1 ^^^ m2.2))
       let a3 := b2 ^^^ rd 48
       let b3 := st.s4 ^^^ rd 56
       let m3 := _museair_wmul a3 b3
       let u3 := if bfast then m2.1 ^^^ m3.2 else mask64 (a3 + (m2.1 ^^^ m3.2))
       let a4 := b3 ^^^ rd 64
       let b4 := st.s5 ^^^ rd 72
       let m4 := _museair_wmul a4 b4
       let u4 := if bfast then m3.1 ^^^ m4.2 else mask64 (a4 + (m3.1 ^^^ m4.2))
       let a5 := b4 ^^^ rd 80
       let b5 := u0 ^^^ rd 88
       let m5 := _museair_wmul a5 b5
       let u5 := if bfast then m4.1 ^^^ m5.2 else mask64 (a5 + (m4.1 ^^^ m5.2))
       (⟨b5, u1, u2, u3, u4, u5⟩, m5.1)) := by
  cases bfast <;> rfl

/-- C6 counterexample: at entry to the block compressor the state word 3
is the raw `SECRET[3]`, which for seed 1 is none of
`SECRET[3]+seed`, `SECRET[3]-seed`, `SECRET[3]^seed`; and the compressor
for a length-17 input really consumes that unseeded state. -/
theorem C6_counterexample :
    (initState 1).s3 = secret 3 ∧
    ¬ ((initState 1).s3 = mask64 (secret 3 + 1) ∨
       (initState 1).s3 = sub64 (secret 3) 1 ∨
       (initState 1).s3 = (secret 3 ^^^ 1)) ∧
    towerLoongPre false 0 17 1 = towerTail false (initState 1) 0 17 17 := by
  refine ⟨rfl, by decide, rfl⟩

/-- C6 (amended): the state is seeded as
`⟨S0+seed, S1-seed, S2^seed, S3, S4, S5⟩` — only words 0..2 are
seed-combined at entry; when `len ≥ 96` words 3..5 are additionally
seed-combined (add, sub, xor) before the block loop and the final ring
carry is XORed into state word 0 exactly once after the loop; for
`len < 96` the loop is skipped, words 3..5 stay the raw secrets and no
ring fold occurs. -/
theorem C6_state_seeding (bfast : Bool) (bytes len seed : Nat) :
    initState seed =
      ⟨mask64 (secret 0 + seed), sub64 (secret 1) seed, secret 2 ^^^ seed,
       secret 3, secret 4, secret 5⟩ ∧
    seedTail (initState seed) seed =
      ⟨mask64 (secret 0 + seed), sub64 (secret 1) seed, secret 2 ^^^ seed,
       mask64 (secret 3 + seed), sub64 (secret 4) seed,
       secret 5 ^^^ seed⟩ ∧
    (96 ≤ len →
      _museair_tower_loong bfast bytes len seed =
        (let r := blockLoop bfast len (seedTail (initState seed) seed)
           bytes len MUSEAIR_RING_PREV
         let t := towerTail bfast
           ⟨r.1.s0 ^^^ r.2.2.2, r.1.s1, r.1.s2, r.1.s3, r.1.s4, r.1.s5⟩
           r.2.1 r.2.2.1 len
         _museair_layer_f bfast len t.1 t.2.1 t.2.2)) ∧
    (len < 96 →
      _museair_tower_loong bfast bytes len seed =
        (let t := towerTail bfast (initState seed) bytes len len
         _museair_layer_f bfast len t.1 t.2.1 t.2.2)) := by
  refine ⟨rfl, rfl, ?_, ?_⟩
  · intro h
    simp [_museair_tower_loong, towerLoongPre, h]
  · intro h
    have h2 : ¬ 96 ≤ len := by omega
    simp [_museair_tower_loong, towerLoongPre, h2]

/-- C6 witness: the two branches at lengths 96 and 17, seed 1. -/
theorem C6_witness :
    _museair_tower_loong false 0 96 1 =
      (let r := blockLoop false 96 (seedTail (initState 1) 1) 0 96
         MUSEAIR_RING_PREV
       let t := towerTail false
         ⟨r.1.s0 ^^^ r.2.2.2, r.1.s1, r.1.s2, r.1.s3, r.1.s4, r.1.s5⟩
         r.2.1 r.2.2.1 96
       _museair_layer_f false 96 t.1 t.2.1 t.2.2) ∧
    _museair_tower_loong false 0 17 1 =
      (let t := towerTail false (initState 1) 0 17 17
       _museair_layer_f false 17 t.1 t.2.1 t.2.2) :=
  ⟨(C6_state_seeding false 0 96 1).2.2.1 (by decide),
   (C6_state_seeding false 0 17 1).2.2.2 (by decide)⟩

/-- C7: the short packing: length 0 gives `(0, 0)`; lengths 1..3 pack
bytes first/middle/last into `i` (length 1 repeats byte 0 three times,
length 2 repeats its last byte twice) with `j = 0`; lengths 4..16 build
both words from 32-bit little-endian reads at offsets 0, `len-4`, `off`
and `len-4-off` with `off = 4` exactly when `len ≥ 8`, else 0. -/
theorem C7_read_short_packing (bytes len : Nat) :
    _museair_read_short bytes 0 = (0, 0) ∧
    (1 ≤ len → len ≤ 3 →
      _museair_read_short bytes len =
        ((byteAt bytes 0 <<< 48) ||| (byteAt bytes (len >>> 1) <<< 24) |||
           byteAt bytes (len - 1), 0)) ∧
    _museair_read_short bytes 1 =
      ((byteAt bytes 0 <<< 48) ||| (byteAt bytes 0 <<< 24) |||
         byteAt bytes 0, 0) ∧
    _museair_read_short bytes 2 =
      ((byteAt bytes 0 <<< 48) ||| (byteAt bytes 1 <<< 24) |||
         byteAt bytes 1, 0) ∧
    (4 ≤ len → len ≤ 16 →
      _museair_read_short bytes len =
        ((_museair_read_u32 bytes <<< 32) |||
           _museair_read_u32 (advance bytes (len - 4)),
         (_museair_read_u32 (advance bytes (if 8 ≤ len then 4 else 0)) <<< 32)
           ||| _museair_read_u32
             (advance bytes (len - 4 - (if 8 ≤ len then 4 else 0))))) := by
  refine ⟨rfl, ?_, rfl, rfl, ?_⟩
  · intro h1 h3
    interval_cases len <;> rfl
  · intro h4 h16
    interval_cases len <;> rfl

/-- C7 witness: the packing at lengths 2 and 12 on the buffer `0x0301`. -/
theorem C7_witness :
    _museair_read_short 769 2 =
      ((byteAt 769 0 <<< 48) ||| (byteAt 769 (2 >>> 1) <<< 24) |||
         byteAt 769 (2 - 1), 0) ∧
    _museair_read_short 769 12 =
      ((_museair_read_u32 769 <<< 32) |||
         _museair_read_u32 (advance 769 (12 - 4)),
       (_museair_read_u32 (advance 769 (if 8 ≤ 12 then 4 else 0)) <<< 32)
         ||| _museair_read_u32
           (advance 769 (12 - 4 - (if 8 ≤ 12 then 4 else 0)))) :=
  ⟨(C7_read_short_packing 769 2).2.1 (by decide) (by decide),
   (C7_read_short_packing 769 12).2.2.2.2 (by decide) (by decide)⟩

/-- C8 counterexample: the claim asserts `chixx` is not an involution on
64-bit triples; in fact applying it twice always returns the input, so
the claimed existential (together with the formula part) is false. -/
theorem C8_counterexample :
    ¬ ((∀ t u v : Nat, _museair_chixx t u v =
          (t ^^^ (comp64 u &&& v), u ^^^ (comp64 v &&& t),
           v ^^^ (comp64 t &&& u))) ∧
       ∃ t u v : Nat, t < M64 ∧ u < M64 ∧ v < M64 ∧
         _museair_chixx (_museair_chixx t u v).1 (_museair_chixx t u v).2.1
           (_museair_chixx t u v).2.2 ≠ (t, u, v)) := by
  rintro ⟨-, t, u, v, ht, hu, hv, hne⟩
  exact hne (chixx_chixx t u v ht hu hv)

/-- C8 (amended): `chixx` maps `(t,u,v)` to exactly
`(t ^ (~u & v), u ^ (~v & t), v ^ (~t & u))`, and it IS an involution on
64-bit words: applying it twice returns the argument. -/
theorem C8_chixx_formula_involution (t u v : Nat) (ht : t < M64)
    (hu : u < M64) (hv : v < M64) :
    _museair_chixx t u v =
      (t ^^^ (comp64 u &&& v), u ^^^ (comp64 v &&& t),
       v ^^^ (comp64 t &&& u)) ∧
    _museair_chixx (_museair_chixx t u v).1 (_museair_chixx t u v).2.1
      (_museair_chixx t u v).2.2 = (t, u, v) :=
  ⟨rfl, chixx_chixx t u v ht hu hv⟩

/-- C8 witness: the formula and the double application at `(1, 2, 4)`. -/
theorem C8_witness :
    (1 : Nat) < M64 ∧ (2 : Nat) < M64 ∧ (4 : Nat) < M64 ∧
    (_museair_chixx 1 2 4 =
      (1 ^^^ (comp64 2 &&& 4), 2 ^^^ (comp64 4 &&& 1),
       4 ^^^ (comp64 1 &&& 2)) ∧
     _museair_chixx (_museair_chixx 1 2 4).1 (_museair_chixx 1 2 4).2.1
       (_museair_chixx 1 2 4).2.2 = (1, 2, 4)) :=
  ⟨by decide, by decide, by decide,
   C8_chixx_formula_involution 1 2 4 (by decide) (by decide) (by decide)⟩

/-- C9: for lengths 4..7 the `j` offset degenerates to 0 and
`read_short` returns two equal words. -/
theorem C9_read_short_equal_words (bytes len : Nat) (h4 : 4 ≤ len)
    (h7 : len ≤ 7) :
    (_museair_read_short bytes len).1 = (_museair_read_short bytes len).2 := by
  interval_cases len <;> rfl

/-- C9 witness: length 5 on an arbitrary concrete buffer. -/
theorem C9_witness :
    (4 : Nat) ≤ 5 ∧ (5 : Nat) ≤ 7 ∧
    (_museair_read_short 123456789 5).1 = (_museair_read_short 123456789 5).2 :=
  ⟨by decide, by decide,
   C9_read_short_equal_words 123456789 5 (by decide) (by decide)⟩

/-- C10: at length 0 no byte of the buffer is read, so every entry
point depends only on the seed: any two buffers give the same digest. -/
theorem C10_zero_length_ignores_buffer (seed b1 b2 : Nat) :
    museair_hash b1 0 seed = museair_hash b2 0 seed ∧
    museair_hash_128 b1 0 seed = museair_hash_128 b2 0 seed ∧
    museair_bfast_hash b1 0 seed = museair_bfast_hash b2 0 seed ∧
    museair_bfast_hash_128 b1 0 seed = museair_bfast_hash_128 b2 0 seed :=
  ⟨(hash_zero_eq false b1 seed).trans (hash_zero_eq false b2 seed).symm,
   (hash_128_zero_eq false b1 seed).trans (hash_128_zero_eq false b2 seed).symm,
   (hash_zero_eq true b1 seed).trans (hash_zero_eq true b2 seed).symm,
   (hash_128_zero_eq true b1 seed).trans (hash_128_zero_eq true b2 seed).symm⟩

end MuseAir
